import Mathlib

/-!
Verification development for the query-routing / response-orchestration core of
the `ai_hover_assistant` browser extension.

The JavaScript source is shallowly embedded: every definition below is a direct
translation of a function of the repository (file and line references are given
in each doc comment).  JavaScript strings are modelled as `String`/`List Char`,
JavaScript numbers occurring here are machine integers in the exercised range
and are modelled as `Nat`/`Int`; the floating-point keyword-score comparisons
against the literals `0.3` and `0.5` are modelled by exact rational
comparisons, which agree with the IEEE double comparisons for every fraction
`matches / words` that the code can produce (the gap between such a fraction
and the rounded double literal always exceeds the rounding error).
Asynchronous effects (chrome storage, network, timers) are made explicit
parameters: an unreliable provider call becomes a function `Nat → Except e r`
giving the outcome of each attempt, and the usage-meter promise chain becomes
a small-step scheduler over explicit operation phases.
-/

namespace JsStr

/-- ASCII lower-casing of one character, as `String.prototype.toLowerCase`
acts on the ASCII range (all inputs considered here are ASCII). -/
def lowerChar (c : Char) : Char :=
  if 'A' ≤ c ∧ c ≤ 'Z' then Char.ofNat (c.toNat + 32) else c

/-- `s.toLowerCase()` on a character list. -/
def lowerList (s : List Char) : List Char := s.map lowerChar

/-- `s.toLowerCase()` on a `String`. -/
def lower (s : String) : String := String.mk (lowerList s.data)

/-- Does `hay` start with `needle`?  (`String.prototype.startsWith`.) -/
def startsWithList : List Char → List Char → Bool
  | _, [] => true
  | [], _ :: _ => false
  | c :: cs, d :: ds => c = d && startsWithList cs ds

/-- Does `hay` contain `needle` as a contiguous substring?
(`String.prototype.includes`; `hay.includes("")` is `true`.) -/
def containsList : List Char → List Char → Bool
  | hay, needle =>
    startsWithList hay needle ||
      match hay with
      | [] => false
      | _ :: rest => containsList rest needle

/-- `hay.includes(needle)` on `String`s. -/
def containsStr (hay needle : String) : Bool := containsList hay.data needle.data

/-- `hay.startsWith(needle)` on `String`s. -/
def startsWithStr (hay needle : String) : Bool := startsWithList hay.data needle.data

/-- The whitespace class used by `String.prototype.trim` and by the regex
class `\s`, restricted to the ASCII range (all inputs here are ASCII). -/
def isJsWs (c : Char) : Bool :=
  c = ' ' || c = '\t' || c = '\n' || c = '\r' || c = '\x0b' || c = '\x0c'

/-- `s.trim()` on a character list. -/
def trimList (s : List Char) : List Char :=
  ((s.dropWhile isJsWs).reverse.dropWhile isJsWs).reverse

/-- `s.trim()` on a `String`. -/
def trim (s : String) : String := String.mk (trimList s.data)

/-- Number of occurrences of a character. -/
def countChar (c : Char) (s : List Char) : Nat := (s.filter (· = c)).length

/-- `s.split(' ').length`: splitting on a single space yields one more piece
than there are space characters (empty pieces included, as in JavaScript). -/
def splitSpaceLen (s : String) : Nat := countChar ' ' s.data + 1

/-- The regex word-character class `\w` = `[A-Za-z0-9_]`. -/
def isWordChar (c : Char) : Bool :=
  ('a' ≤ c && c ≤ 'z') || ('A' ≤ c && c ≤ 'Z') || ('0' ≤ c && c ≤ '9') || c = '_'

end JsStr

namespace Regex

/-!
A small backtracking matcher for the regular expressions that the routing
code uses with `.test(...)`.  Iterated sub-patterns in those regexes are
always character classes, so `star`/`plus` take a class directly; this keeps
every recursion structural and therefore kernel-reducible.  For a pure
existence test (`RegExp.prototype.test`) the greedy/lazy distinction and the
order in which alternatives are tried do not affect the result, only which
match is found, so the matcher may try continuations shortest-first.
-/

/-- Regular-expression syntax: character classes, sequencing, alternation,
option, class iteration, and the word-boundary assertion `\b`. -/
inductive RE where
  | eps : RE
  | cls : (Char → Bool) → RE
  | seq : RE → RE → RE
  | alt : RE → RE → RE
  | opt : RE → RE
  | star : (Char → Bool) → RE
  | plus : (Char → Bool) → RE
  | wb : RE

/-- A string literal as a regex. -/
def lit (s : String) : RE :=
  s.data.foldr (fun c r => RE.seq (RE.cls (fun d => d = c)) r) RE.eps

/-- `\b`: the previous character (`none` at the start) and the next character
(`none` at the end) disagree about being word characters. -/
def atBoundary (p : Option Char) (s : List Char) : Bool :=
  let before := match p with | some c => JsStr.isWordChar c | none => false
  let after := match s with | c :: _ => JsStr.isWordChar c | [] => false
  before != after

/-- Match zero or more `f`-characters, then hand the rest to the
continuation `k` (which also receives the previous character, for `\b`). -/
def starK (f : Char → Bool) : Option Char → List Char → (Option Char → List Char → Bool) → Bool
  | p, [], k => k p []
  | p, c :: rest, k => k p (c :: rest) || (f c && starK f (some c) rest k)

/-- Continuation-passing matcher: `reMatch r p s k` holds when a prefix of
`s` matches `r` (with `p` the character just before `s`) and `k` accepts the
remainder. -/
def reMatch : RE → Option Char → List Char → (Option Char → List Char → Bool) → Bool
  | .eps, p, s, k => k p s
  | .cls f, _, s, k =>
    match s with
    | [] => false
    | c :: rest => f c && k (some c) rest
  | .seq a b, p, s, k => reMatch a p s (fun p2 s2 => reMatch b p2 s2 k)
  | .alt a b, p, s, k => reMatch a p s k || reMatch b p s k
  | .opt a, p, s, k => reMatch a p s k || k p s
  | .star f, p, s, k => starK f p s k
  | .plus f, _, s, k =>
    match s with
    | [] => false
    | c :: rest => f c && starK f (some c) rest k
  | .wb, p, s, k => atBoundary p s && k p s

/-- Try to match starting at every position of `s`, tracking the previous
character. -/
def reTestAux (re : RE) : Option Char → List Char → Bool
  | p, [] => reMatch re p [] (fun _ _ => true)
  | p, c :: rest => reMatch re p (c :: rest) (fun _ _ => true) || reTestAux re (some c) rest

/-- `re.test(s)`: does `re` match anywhere in `s`? -/
def reTest (re : RE) (s : List Char) : Bool := reTestAux re none s

/-- `re.test(s)` for a case-insensitive regex whose literals are written in
lower case: test against the lower-cased input. -/
def reTestCI (re : RE) (s : String) : Bool := reTest re (JsStr.lowerList s.data)

/-- The class `[A-Za-z]` (also its case-insensitive uses). -/
def isAlpha (c : Char) : Bool := ('a' ≤ c && c ≤ 'z') || ('A' ≤ c && c ≤ 'Z')

/-- The class `[A-Za-z\s]`. -/
def isAlphaOrWs (c : Char) : Bool := isAlpha c || JsStr.isJsWs c

/-- The class `.` (any character except a line terminator). -/
def isDotChar (c : Char) : Bool := c ≠ '\n' && c ≠ '\r'

end Regex

namespace UsageTracker

/-!
`UsageTracker` (unnamed/part_001).  The quota constant, the usage record, and
the increment operation, whose concurrency discipline — the promise chain
`this.updateLock = this.updateLock.then(...)` of `incrementUsage`
(part_001 lines 84-117) — is embedded as a small-step scheduler below.
-/

/-- `MAX_FREE_USES` (part_001 line 5). -/
def MAX_FREE_USES : Nat := 25

/-- The usage record `{currentUsage, remaining, exceeded}` returned by the
tracker.  `remaining` is `Math.max(0, MAX_FREE_USES - usage)`, an integer. -/
structure UsageRecord where
  currentUsage : Nat
  remaining : Int
  exceeded : Bool
deriving DecidableEq, Repr

/-- `calculateUsageInfo(usage)` (part_001 lines 119-125). -/
def calculateUsageInfo (usage : Nat) : UsageRecord :=
  { currentUsage := usage
    remaining := max 0 ((MAX_FREE_USES : Int) - usage)
    exceeded := decide (MAX_FREE_USES ≤ usage) }

/-- One queued `incrementUsage` callback (part_001 lines 86-114), with the
effects made explicit: it reads the persisted counter, writes the counter
plus one, and resolves with the fresh record; if any internal step throws
(`fail = true`), the `catch` branch resolves with the fixed record
`{currentUsage: 0, remaining: MAX_FREE_USES, exceeded: false}`.  The function
is total — the returned promise always resolves, never rejects. -/
def incrementUsage (fail : Bool) (currentUsage : Nat) : UsageRecord :=
  if fail then
    { currentUsage := 0, remaining := (MAX_FREE_USES : Int), exceeded := false }
  else
    let newUsage := currentUsage + 1
    { currentUsage := newUsage
      remaining := max 0 ((MAX_FREE_USES : Int) - newUsage)
      exceeded := decide (MAX_FREE_USES ≤ newUsage) }

/-- Progress of one queued increment operation: not yet started, performed its
read of the counter (observing the pre-increment value `pre`), or fully
persisted its write of `pre + 1`. -/
inductive IncPhase where
  | idle : IncPhase
  | readDone : Nat → IncPhase
  | written : Nat → IncPhase
deriving DecidableEq, Repr

/-- Has the operation fully persisted? -/
def isWritten : IncPhase → Bool
  | .written _ => true
  | _ => false

/-- The interleaving state for `N` concurrent `incrementUsage` calls on one
installation id: the persisted counter and the phase of each queued call,
listed in the order in which they were appended to `updateLock`. -/
structure ChainState where
  storage : Nat
  ops : List IncPhase
deriving DecidableEq, Repr

/-- The promise-chain (FIFO) discipline: the callback of operation `i` starts
only after every earlier operation in the chain has fully persisted. -/
def chainReady (ops : List IncPhase) (i : Nat) : Bool :=
  (List.range i).all fun j =>
    match ops.get? j with
    | some p => isWritten p
    | none => false

/-- One scheduler step executing operation `i`: an idle operation whose
predecessors are all persisted performs its read (observing the current
counter), and an operation that has read `v` persists `v + 1`.  Any other
step is not enabled (`none`). -/
def chainStep (s : ChainState) (i : Nat) : Option ChainState :=
  match s.ops.get? i with
  | some .idle =>
    if chainReady s.ops i then
      some { s with ops := s.ops.set i (.readDone s.storage) }
    else none
  | some (.readDone v) =>
    some { storage := v + 1, ops := s.ops.set i (.written v) }
  | some (.written _) => none
  | none => none

/-- Run a schedule (an arbitrary interleaving, one enabled step at a time). -/
def chainRun (s : ChainState) : List Nat → Option ChainState
  | [] => some s
  | i :: rest =>
    match chainStep s i with
    | some s2 => chainRun s2 rest
    | none => none

/-- `N` concurrent `incrementUsage` calls starting from a persisted counter
of `0`, none started yet. -/
def initChain (N : Nat) : ChainState :=
  { storage := 0, ops := List.replicate N .idle }

end UsageTracker

namespace MemoryService

/-!
`MemoryService.storeConversation` (src/services/memory-service.js lines
43-82); `AIService.storeConversation` (unnamed/part_004 lines 827-838) keeps
the same list discipline.  Both push the new entry and, when the length
exceeds the cap of 50, `shift()` the oldest entry off the front.
-/

/-- `MAX_MESSAGES` (memory-service.js line 5). -/
def MAX_MESSAGES : Nat := 50

/-- One stored conversation entry (memory-service.js lines 56-62). -/
structure ConversationEntry where
  timestamp : Nat
  sessionId : String
  message : String
  response : String
  model : String
deriving DecidableEq, Repr

/-- The list update performed by `storeConversation` (memory-service.js lines
64-68): `conversations.push(e)`, then `if (length > MAX_MESSAGES) shift()`. -/
def storeConversation (conversations : List ConversationEntry) (e : ConversationEntry) :
    List ConversationEntry :=
  let cs := conversations ++ [e]
  if MAX_MESSAGES < cs.length then cs.tail else cs

/-- A throwaway entry used to state concrete instances. -/
def mkEntry (i : Nat) : ConversationEntry :=
  { timestamp := i, sessionId := "s", message := "m", response := "r", model := "claude" }

end MemoryService

namespace ModelDelegationService

/-!
`ModelDelegationService` (unnamed/part_002): the scoring-based combiner
`determineModelForQuery` (lines 15-63), its keyword score
`calculateKeywordScore` (lines 65-68), and the contextual fallback
`analyzeQueryContext` (lines 70-88).
-/

/-- `this.realTimeKeywords` (part_002 lines 5-8). -/
def realTimeKeywords : List String :=
  ["now", "today", "current", "latest", "near", "live", "breaking", "this weekend",
   "weather", "traffic", "price", "available", "open", "schedule", "events"]

/-- `this.analyticalKeywords` (part_002 lines 9-12). -/
def analyticalKeywords : List String :=
  ["explain", "analyze", "compare", "historical", "why", "theory", "break down",
   "how does", "what causes", "implications", "evaluate", "assess"]

/-- `calculateKeywordScore(query, keywords)` (part_002 lines 65-68), kept as
the exact fraction: `(matched keyword count, Math.max(word count, 1))` where
the word count is `query.split(' ').length`. -/
def calculateKeywordScore (query : String) (keywords : List String) : Nat × Nat :=
  ((keywords.filter fun kw => JsStr.containsStr query kw).length,
   max (JsStr.splitSpaceLen query) 1)

/-- `score > 0.3` for a score `m / w`.  Exact: agrees with the IEEE double
comparison used by the source for every producible fraction. -/
def scoreGt03 (s : Nat × Nat) : Bool := decide (3 * s.2 < 10 * s.1)

/-- `score > 0.5` for a score `m / w` (`0.5` is exact in binary). -/
def scoreGt05 (s : Nat × Nat) : Bool := decide (s.2 < 2 * s.1)

/-- A decision record `{model, reasoning, scores?}`; scores are kept as the
exact fractions `(matches, words)`. -/
structure DelegationDecision where
  model : String
  reasoning : String
  scores : Option ((Nat × Nat) × (Nat × Nat))
deriving DecidableEq, Repr

/-- The location regex of `analyzeQueryContext` (part_002 line 72):
`/\b(?:in|at|near|around)\s+([A-Za-z\s]+(?:,\s*[A-Za-z\s]+)?)\b/i`. -/
def locationRE : Regex.RE :=
  .seq .wb
    (.seq (.alt (Regex.lit "in") (.alt (Regex.lit "at") (.alt (Regex.lit "near") (Regex.lit "around"))))
      (.seq (.plus JsStr.isJsWs)
        (.seq (.plus Regex.isAlphaOrWs)
          (.seq (.opt (.seq (.cls (fun c => c = ','))
                        (.seq (.star JsStr.isJsWs) (.plus Regex.isAlphaOrWs))))
            .wb))))

/-- The time regex of `analyzeQueryContext` (part_002 line 80):
`/\b(?:when|time|schedule|hours|open|closes?|available)\b/i`. -/
def timeRE : Regex.RE :=
  .seq .wb
    (.seq (.alt (Regex.lit "when")
            (.alt (Regex.lit "time")
              (.alt (Regex.lit "schedule")
                (.alt (Regex.lit "hours")
                  (.alt (Regex.lit "open")
                    (.alt (.seq (Regex.lit "close") (.opt (.cls (fun c => c = 's'))))
                      (Regex.lit "available")))))))
      .wb)

/-- `analyzeQueryContext(query)` (part_002 lines 70-88). -/
def analyzeQueryContext (query : String) : Option DelegationDecision :=
  if Regex.reTestCI locationRE query then
    some { model := "perplexity"
           reasoning := "Location-based query requiring current data"
           scores := none }
  else if Regex.reTestCI timeRE query then
    some { model := "perplexity"
           reasoning := "Time-sensitive query requiring current data"
           scores := none }
  else none

/-- The real-time score of a query: `calculateKeywordScore` applied to the
lower-cased query and `realTimeKeywords` (part_002 line 19). -/
def realTimeScore (query : String) : Nat × Nat :=
  calculateKeywordScore (JsStr.lower query) realTimeKeywords

/-- The analytical score of a query (part_002 line 20). -/
def analyticalScore (query : String) : Nat × Nat :=
  calculateKeywordScore (JsStr.lower query) analyticalKeywords

/-- `determineModelForQuery(query)` (part_002 lines 15-63): hybrid when both
scores exceed `0.3`; a single model when its score exceeds `0.5`; otherwise
the contextual regex checks; otherwise the default decision, which is
`hybrid` ("Complex query requiring comprehensive response"). -/
def determineModelForQuery (query : String) : DelegationDecision :=
  let realTime := realTimeScore query
  let analytical := analyticalScore query
  if scoreGt03 realTime && scoreGt03 analytical then
    { model := "hybrid"
      reasoning := "Query requires both real-time data and analysis"
      scores := some (realTime, analytical) }
  else if scoreGt05 realTime then
    { model := "perplexity"
      reasoning := "Query requires real-time data"
      scores := some (realTime, analytical) }
  else if scoreGt05 analytical then
    { model := "claude"
      reasoning := "Query requires analytical processing"
      scores := some (realTime, analytical) }
  else
    match analyzeQueryContext query with
    | some d => d
    | none =>
      { model := "hybrid"
        reasoning := "Complex query requiring comprehensive response"
        scores := some (realTime, analytical) }

/-- The example query of the spec (section 8, "Hybrid threshold"). -/
def bostonQuery : String :=
  "Analyze the current weather trends and explain the underlying atmospheric theory near Boston"

end ModelDelegationService

namespace AIService

/-!
`AIService` (unnamed/part_004): the hard rule cascade `determineModelForQuery`
(lines 88-213), `isWebpageQuery` (lines 252-278), `calculateContextRelevance`
(lines 422-432), the retry executor `sendMessageWithRetry` (lines 840-904),
and the hybrid pipeline `queryHybrid` (lines 382-420).
-/

/-- The slice of `PageContext` that the routing cascade consults
(`context?.visibleText`); `none` models an absent field, `some ""` an empty
one (both are falsy in the source). -/
structure PageContext where
  visibleText : Option String
deriving DecidableEq, Repr

/-- A routing decision `{model, useWebpageContext, reasoning}`. -/
structure RoutingDecision where
  model : String
  useWebpageContext : Bool
  reasoning : String
deriving DecidableEq, Repr

/-- JavaScript string truthiness for an optional field: present and
non-empty. -/
def jsTruthyStr : Option String → Bool
  | some s => decide (s ≠ "")
  | none => false

/-- The `eventPatterns` regexes (part_004 lines 92-98), all tested
case-insensitively:
`/when is .* this year/`, `/lookup .* event/`, `/schedule for .*/`,
`/dates? for .*/`, `/time[s]? for .*/`. -/
def eventPatterns : List Regex.RE :=
  [ .seq (Regex.lit "when is ") (.seq (.star Regex.isDotChar) (Regex.lit " this year")),
    .seq (Regex.lit "lookup ") (.seq (.star Regex.isDotChar) (Regex.lit " event")),
    .seq (Regex.lit "schedule for ") (.star Regex.isDotChar),
    .seq (Regex.lit "date") (.seq (.opt (.cls (fun c => c = 's')))
      (.seq (Regex.lit " for ") (.star Regex.isDotChar))),
    .seq (Regex.lit "time") (.seq (.opt (.cls (fun c => c = 's')))
      (.seq (Regex.lit " for ") (.star Regex.isDotChar))) ]

/-- The location regex (part_004 line 109), identical to the one in
`ModelDelegationService.analyzeQueryContext`. -/
def locationPattern : Regex.RE := ModelDelegationService.locationRE

/-- The expanded `realTimeKeywords` (part_004 lines 113-121). -/
def realTimeKeywords : List String :=
  ["recommend", "pizza", "restaurant", "cafe", "bar", "food",
   "near", "open", "current", "today", "weather", "price",
   "available", "location", "address", "weekend", "tonight",
   "event", "happening", "things to do", "what\x27s on",
   "activities", "tomorrow", "upcoming", "this week",
   "next week", "show", "playing", "screening", "showing",
   "hours", "time", "schedule", "booking"]

/-- The `eventKeywords` (part_004 lines 124-128). -/
def eventKeywords : List String :=
  ["this weekend", "tonight", "today",
   "things to do", "activities", "events",
   "what\x27s happening", "going on"]

/-- The `companyInfoPatterns` regexes (part_004 lines 164-169), tested
case-insensitively. -/
def companyInfoPatterns : List Regex.RE :=
  [ .seq (Regex.lit "who ")
      (.alt (Regex.lit "runs") (.alt (Regex.lit "owns") (.alt (Regex.lit "started")
        (.alt (Regex.lit "founded") (.alt (Regex.lit "leads")
          (.alt (Regex.lit "manages") (Regex.lit "operates"))))))),
    .alt (Regex.lit "founder") (.alt (Regex.lit "ceo") (.alt (Regex.lit "owner")
      (.alt (Regex.lit "president") (Regex.lit "director")))),
    .seq (Regex.lit "when ")
      (.seq (.alt (Regex.lit "was") (Regex.lit "did"))
        (.seq (.star Regex.isDotChar)
          (.alt (Regex.lit "found") (.alt (Regex.lit "start")
            (.alt (Regex.lit "begin") (Regex.lit "establish")))))),
    .alt (Regex.lit "company leadership") (Regex.lit "management team") ]

/-- The `basicQueries` greeting list (part_004 lines 194-197). -/
def basicQueries : List String :=
  ["hello", "hi", "hey", "good morning", "good afternoon",
   "good evening", "help", "what can you do"]

/-- `isWebpageQuery(prompt)` (part_004 lines 252-278): an explicit webpage
reference, or a contextual term combined with the word "this". -/
def isWebpageQuery (prompt : String) : Bool :=
  let lowercasePrompt := JsStr.lower prompt
  let explicitTerms := ["this page", "this website", "this site", "this company",
    "the page", "the website", "the company", "this webpage"]
  let contextualTerms := ["what does", "tell me about", "explain", "describe"]
  explicitTerms.any (fun term => JsStr.containsStr lowercasePrompt term) ||
    (contextualTerms.any (fun term => JsStr.containsStr lowercasePrompt term) &&
      JsStr.containsStr lowercasePrompt "this")

/-- `prompt.toLowerCase().split(/\W+/)` — pieces of word characters separated
by runs of non-word characters (JavaScript keeps empty first/last pieces;
they are removed by the length filter below, so they are not materialised). -/
def wordTokens (s : List Char) : List String :=
  ((s.splitOnP (fun c => !JsStr.isWordChar c)).map fun piece => String.mk piece)

/-- `calculateContextRelevance(prompt, contextText)` (part_004 lines 422-432)
as the exact fraction `(shared words, distinct prompt words)`: both sides are
lower-cased, split on non-word runs, filtered to length > 3, and de-duplicated
(a JavaScript `Set`); the context is truncated to its first 1000 characters
before splitting. -/
def calculateContextRelevance (prompt contextText : String) : Nat × Nat :=
  let promptWords :=
    ((wordTokens (JsStr.lowerList prompt.data)).filter fun w => 3 < w.length).dedup
  let contextWords :=
    ((wordTokens (JsStr.lowerList (contextText.data.take 1000))).filter
      fun w => 3 < w.length).dedup
  ((promptWords.filter fun w => contextWords.contains w).length, promptWords.length)

/-- `relevance < 0.3` on the exact fraction; when the prompt-word set is
empty the source computes `NaN < 0.3`, which is false, matching
`10 * m < 3 * 0 = 0` being false. -/
def relevanceLt03 (r : Nat × Nat) : Bool := decide (10 * r.1 < 3 * r.2)

/-- Rule 1 of the cascade: some event pattern matches. -/
def eventFires (prompt : String) : Bool :=
  eventPatterns.any fun re => Regex.reTestCI re prompt

/-- Rule 2: the location pattern matches. -/
def hasLocation (prompt : String) : Bool := Regex.reTestCI locationPattern prompt

/-- Rule 5 keyword test (on the lower-cased, trimmed prompt). -/
def eventKwHit (lowercasePrompt : String) : Bool :=
  eventKeywords.any fun kw => JsStr.containsStr lowercasePrompt kw

/-- Rules 6-7 keyword test (the source lower-cases each keyword again; they
are already lower case). -/
def realTimeKwHit (lowercasePrompt : String) : Bool :=
  realTimeKeywords.any fun kw => JsStr.containsStr lowercasePrompt (JsStr.lower kw)

/-- Rule 8 pattern test: some company-information pattern matches. -/
def companyFires (prompt : String) : Bool :=
  companyInfoPatterns.any fun re => Regex.reTestCI re prompt

/-- `determineModelForQuery(prompt, context)` (part_004 lines 88-213): the
ordered rule cascade.  Regex tests run on the raw prompt (case-insensitive
flag), keyword tests on `prompt.toLowerCase().trim()`. -/
def determineModelForQuery (prompt : String) (context : Option PageContext) :
    RoutingDecision :=
  let lowercasePrompt := JsStr.trim (JsStr.lower prompt)
  if eventFires prompt then
    { model := "perplexity", useWebpageContext := false, reasoning := "Event lookup query" }
  else if hasLocation prompt && eventKwHit lowercasePrompt then
    { model := "perplexity", useWebpageContext := false
      reasoning := "Query requires current local event information" }
  else if hasLocation prompt && realTimeKwHit lowercasePrompt then
    { model := "perplexity", useWebpageContext := false
      reasoning := "Query requires current local information" }
  else if realTimeKwHit lowercasePrompt &&
      !(JsStr.startsWithStr lowercasePrompt "what is") &&
      !(JsStr.startsWithStr lowercasePrompt "how does") then
    { model := "perplexity", useWebpageContext := false
      reasoning := "Real-time information query" }
  else if companyFires prompt && jsTruthyStr (context.bind (·.visibleText)) &&
      relevanceLt03 (calculateContextRelevance prompt
        ((context.bind (·.visibleText)).getD "")) then
    { model := "perplexity", useWebpageContext := false
      reasoning := "Company information query requiring external search" }
  else if isWebpageQuery prompt then
    { model := "perplexity", useWebpageContext := true
      reasoning := "Query is about current webpage" }
  else if basicQueries.contains lowercasePrompt then
    { model := "claude", useWebpageContext := false, reasoning := "Basic greeting" }
  else
    { model := "claude", useWebpageContext := false, reasoning := "General knowledge query" }

end AIService

namespace AIService

/-- The normalized message-response shape the executor works with:
`success` plus `data.content[0].text` (and, for the part_005 handlers, the
`error` field). -/
structure ApiResponse where
  success : Bool
  text : String
  err : Option String := none
deriving DecidableEq, Repr

/-- The apology result built when `sendMessageWithRetry` exhausts its
retries (part_004 lines 888-895): a `success: true` response whose text
embeds the final failure reason. -/
def apologyResponse (errMsg : String) : ApiResponse :=
  { success := true
    text := "Sorry, I encountered an error while trying to process your request: "
      ++ errMsg ++ ". Please check your API keys and try again." }

/-- The `while (currentAttempt < maxRetries)` loop of `sendMessageWithRetry`
(part_004 lines 847-903), with the per-attempt transport outcome supplied by
`attempts : Nat → Except String ApiResponse` (the argument is the 0-indexed
attempt number; `Except.error` models a throw/rejection).  Returns the
resolved value (`none` models the undefined result when the loop never
runs), the list of backoff delays slept in milliseconds, and the number of
attempts made.  The fuel is the number of loop iterations still permitted
and starts at `maxRetries`; each iteration increments `currentAttempt`, so
the fuel never runs out before the loop guard fails. -/
def sendGo (attempts : Nat → Except String ApiResponse) (maxRetries : Nat) :
    Nat → Nat → List Nat → Nat → Option ApiResponse × List Nat × Nat
  | 0, _, acc, made => (none, acc.reverse, made)
  | fuel + 1, currentAttempt, acc, made =>
    if currentAttempt < maxRetries then
      match attempts currentAttempt with
      | .ok r => (some r, acc.reverse, made + 1)
      | .error e =>
        if currentAttempt + 1 = maxRetries then
          (some (apologyResponse e), acc.reverse, made + 1)
        else
          sendGo attempts maxRetries fuel (currentAttempt + 1)
            (min (1000 * 2 ^ (currentAttempt + 1)) 8000 :: acc) (made + 1)
    else (none, acc.reverse, made)

/-- `sendMessageWithRetry(message, maxRetries = 3, ...)` (part_004 lines
840-904) over the supplied attempt outcomes. -/
def sendMessageWithRetry (attempts : Nat → Except String ApiResponse)
    (maxRetries : Nat := 3) : Option ApiResponse × List Nat × Nat :=
  sendGo attempts maxRetries maxRetries 0 [] 0

end AIService

namespace Background

/-!
The background-script provider handlers of unnamed/part_004:
`handlePerplexityRequest` (lines 1116-1222) and `handleClaudeRequest`
(lines 1225-1303).  Each attempt outcome is supplied as
`Nat → Except String String`: `Except.ok` is the validated response text,
`Except.error` the message of whatever the attempt threw (for a non-2xx
HTTP response that message is `"... API Error (status): body"` — see
`claudeHttpError` below; authentication failures 401/403 take exactly this
path, there is no separate handling for them).
-/

/-- The graceful fallback text returned by `handlePerplexityRequest` on its
final retry (part_004 line 1208). -/
def perplexityApologyText : String :=
  "I apologize, but I couldn\x27t process your request. Please try again later."

/-- The message of the error thrown by `handleClaudeRequest` for a non-2xx
HTTP status (part_004 line 1272): authentication failures arrive here as
status 401 or 403. -/
def claudeHttpError (status : Nat) (body : String) : String :=
  "Claude API Error (" ++ toString status ++ "): " ++ body

/-- The `for (let i = 0; i < retryCount; i++)` loop of
`handlePerplexityRequest` (part_004 lines 1120-1222).  On the final failed
attempt it returns the `success: true` apology; otherwise it sleeps
`min(1000 * 2^i, 8000)` and retries.  `none` models falling off the end of
the function (the loop guard failing), which returns undefined. -/
def perplexityGo (attempts : Nat → Except String String) (retryCount : Nat) :
    Nat → Nat → List Nat → Nat → Option AIService.ApiResponse × List Nat × Nat
  | 0, _, acc, made => (none, acc.reverse, made)
  | fuel + 1, i, acc, made =>
    if i < retryCount then
      match attempts i with
      | .ok t => (some { success := true, text := t }, acc.reverse, made + 1)
      | .error _ =>
        if i = retryCount - 1 then
          (some { success := true, text := perplexityApologyText }, acc.reverse, made + 1)
        else
          perplexityGo attempts retryCount fuel (i + 1)
            (min (1000 * 2 ^ i) 8000 :: acc) (made + 1)
    else (none, acc.reverse, made)

/-- `handlePerplexityRequest(message, retryCount = 2)` over the supplied
attempt outcomes. -/
def handlePerplexityRequest (attempts : Nat → Except String String)
    (retryCount : Nat := 2) : Option AIService.ApiResponse × List Nat × Nat :=
  perplexityGo attempts retryCount retryCount 0 [] 0

/-- The `for (let i = 0; i < retryCount; i++)` loop of `handleClaudeRequest`
(part_004 lines 1230-1298).  Every caught error — authentication errors
included — is retried after a `min(2^i * 1000, 8000)` sleep until the final
attempt, whose error is rethrown wrapped as `Claude API Error: ...`; the
`Except.error` result models that throw.  Falling out of the loop throws
`All retry attempts failed`. -/
def claudeGo (attempts : Nat → Except String String) (retryCount : Nat) :
    Nat → Nat → List Nat → Nat → Except String AIService.ApiResponse × List Nat × Nat
  | 0, _, acc, made => (.error "All retry attempts failed", acc.reverse, made)
  | fuel + 1, i, acc, made =>
    if i < retryCount then
      match attempts i with
      | .ok t => (.ok { success := true, text := t }, acc.reverse, made + 1)
      | .error e =>
        if i = retryCount - 1 then
          (.error ("Claude API Error: " ++ e), acc.reverse, made + 1)
        else
          claudeGo attempts retryCount fuel (i + 1)
            (min (2 ^ i * 1000) 8000 :: acc) (made + 1)
    else (.error "All retry attempts failed", acc.reverse, made)

/-- `handleClaudeRequest(message, retryCount = 2)` (part_004 lines
1225-1303) over the supplied attempt outcomes. -/
def handleClaudeRequest (attempts : Nat → Except String String)
    (retryCount : Nat := 2) : Except String AIService.ApiResponse × List Nat × Nat :=
  claudeGo attempts retryCount retryCount 0 [] 0

/-- The part_005 variant of `handleClaudeRequest` (unnamed/part_005 lines
207-312): a single attempt, no retry for any error kind; a failure returns
`success: false` with one generic apology template, the same for an
authentication error as for every other error. -/
def handleClaudeRequestAlt (attempt : Except String String) : AIService.ApiResponse :=
  match attempt with
  | .ok t => { success := true, text := t }
  | .error e =>
    { success := false
      text := "I apologize, but I couldn\x27t process your request: " ++ e
      err := some ("Claude API Error: " ++ e) }

end Background

namespace AIService

/-- The merge prompt `formattingPrompt` built by `queryHybrid` (part_004
lines 397-407), embedding the raw real-time text. -/
def formattingPrompt (prompt rawData : String) : String :=
  "I have raw data about \"" ++ prompt
    ++ "\" that needs to be formatted into a clear, well-organized response. \n"
    ++ "    Here\x27s the raw data:\n    " ++ rawData ++ "\n    \n"
    ++ "    Please format this information into a clear, helpful response that:\n"
    ++ "    1. Organizes the information logically\n"
    ++ "    2. Highlights the most relevant details\n"
    ++ "    3. Makes it easy to understand and act on\n"
    ++ "    4. Adds any relevant context or tips\n    \n"
    ++ "    Format the response in a user-friendly way, but don\x27t add any information that wasn\x27t in the original data."

/-- The result of the hybrid pipeline. -/
structure HybridResult where
  text : String
  model : String
deriving DecidableEq, Repr

/-- `queryHybrid(prompt, context, requestId)` (part_004 lines 382-420) as a
function of the real-time leg outcome.  `perplexityText` is
`perplexityResponse?.text` (`none` for a missing response or field,
`some ""` for an empty text); `claude` gives the analytical model response
text for a prompt.  The guard is `if (!perplexityResponse?.text)`: only a
falsy text takes the fallback branch.  In that branch the source awaits
`this.queryClaude(prompt, context, false).text` — the `.text` of a promise,
which is undefined — so the concatenated fallback text ends in the string
"undefined". -/
def queryHybrid (perplexityText : Option String) (claude : String → String)
    (prompt : String) : HybridResult :=
  if !jsTruthyStr perplexityText then
    { text := "I couldn\x27t retrieve real-time data, but here\x27s my best answer based on what I know:\n\n"
        ++ "undefined"
      model := "Claude (fallback)" }
  else
    { text := claude (formattingPrompt prompt (perplexityText.getD ""))
      model := "hybrid (Perplexity + Claude)" }

end AIService

namespace AIService

/-!
`formatResponse(text)` (unnamed/part_004 lines 578-633).  The string
transformations are embedded over `List Char`; the scanning helpers take a
fuel argument equal to the input length so that every recursion is
structural (each step consumes at least one character, so the fuel never
runs out on the real input).
-/

/-- Drop characters up to and including the first `>`, if any
(the body of one `/<[^>]*>/` match). -/
def dropThroughGt : List Char → Option (List Char)
  | [] => none
  | '>' :: rest => some rest
  | _ :: rest => dropThroughGt rest

/-- `text.replace(/<[^>]*>/g, '')`: at each `<` the match extends through
the next `>` (the class `[^>]*` admits every other character); a `<` with no
later `>` does not match and is kept. -/
def stripHtmlGo : Nat → List Char → List Char
  | 0, s => s
  | _ + 1, [] => []
  | fuel + 1, c :: rest =>
    if c = '<' then
      match dropThroughGt rest with
      | some rest2 => stripHtmlGo fuel rest2
      | none => c :: stripHtmlGo fuel rest
    else c :: stripHtmlGo fuel rest

/-- `text.replace(/<[^>]*>/g, '')`. -/
def stripHtmlTags (s : List Char) : List Char := stripHtmlGo s.length s

/-- Find the lazily-nearest closing `**` (the `(.*?)` cannot cross a line
terminator): returns the enclosed text and the remainder after the `**`. -/
def findBoldClose : List Char → Option (List Char × List Char)
  | '*' :: '*' :: rest => some ([], rest)
  | [] => none
  | '\n' :: _ => none
  | '\r' :: _ => none
  | c :: rest =>
    match findBoldClose rest with
    | some (inner, r) => some (c :: inner, r)
    | none => none

/-- `text.replace(/\*\*(.*?)\*\*/g, '<strong>$1</strong>')`: at each `**`
with a same-line closing `**`, the pair is rewritten; an unclosed `**`
advances one character, as the regex engine does. -/
def convBoldGo : Nat → List Char → List Char
  | 0, s => s
  | _ + 1, [] => []
  | fuel + 1, c :: rest =>
    if c = '*' ∧ rest.head? = some '*' then
      match findBoldClose rest.tail with
      | some (inner, r) =>
        "<strong>".data ++ inner ++ "</strong>".data ++ convBoldGo fuel r
      | none => c :: convBoldGo fuel rest
    else c :: convBoldGo fuel rest

/-- `text.replace(/\*\*(.*?)\*\*/g, '<strong>$1</strong>')`. -/
def convBold (s : List Char) : List Char := convBoldGo s.length s

/-- `text.replace(/•/g, '•')` — the source "normalizes" bullets by replacing
the bullet character with itself. -/
def normalizeBullets (s : List Char) : List Char :=
  s.map fun c => if c = '•' then '•' else c

/-- `text.split(/\n\n+/)`: sections are separated by maximal runs of two or
more newlines. -/
def splitSectionsGo : Nat → List Char → List Char → List (List Char)
  | _, acc, [] => [acc.reverse]
  | 0, acc, s => [acc.reverse ++ s]
  | fuel + 1, acc, c :: rest =>
    if c = '\n' ∧ rest.head? = some '\n' then
      acc.reverse :: splitSectionsGo fuel [] (rest.dropWhile (· = '\n'))
    else splitSectionsGo fuel (c :: acc) rest

/-- `text.split(/\n\n+/)`. -/
def splitSections (s : List Char) : List (List Char) := splitSectionsGo s.length [] s

/-- `s.split(sep)` for a single-character separator. -/
def splitOnChar (sep : Char) : List Char → List (List Char)
  | [] => [[]]
  | c :: rest =>
    match splitOnChar sep rest with
    | [] => [[]]
    | piece :: pieces =>
      if c = sep then [] :: piece :: pieces else (c :: piece) :: pieces

/-- Does `\d+\.` match at this position (a maximal digit run followed by a
dot)? -/
def digitsDotAt (s : List Char) : Bool :=
  let ds := s.takeWhile Char.isDigit
  decide (ds ≠ []) &&
    (match s.drop ds.length with
     | '.' :: _ => true
     | _ => false)

/-- `section.split(/(?=\d+\.)/)`: split before every later position where
the lookahead `\d+\.` matches (a zero-width match at position 0 produces no
leading piece in JavaScript). -/
def splitNumberedGo : Nat → Bool → List Char → List Char → List (List Char)
  | _, _, acc, [] => [acc.reverse]
  | 0, _, acc, s => [acc.reverse ++ s]
  | fuel + 1, first, acc, c :: rest =>
    if !first && digitsDotAt (c :: rest) then
      acc.reverse :: splitNumberedGo fuel false [c] rest
    else splitNumberedGo fuel false (c :: acc) rest

/-- `section.split(/(?=\d+\.)/)`. -/
def splitNumbered (s : List Char) : List (List Char) := splitNumberedGo s.length true [] s

/-- The backtracking tail `\s*(.+)` of the title and label regexes: the
greedy `\s*` backs off from its maximal run until `.` can match (a `.` is
any character except a line terminator), and the greedy `(.+)` then takes
the rest of that line.  `k` counts the whitespace characters still
consumed. -/
def dotGroupFrom : Nat → List Char → Option (List Char)
  | k, t =>
    match t.drop k with
    | h :: _ =>
      if Regex.isDotChar h then some ((t.drop k).takeWhile Regex.isDotChar)
      else match k with
        | 0 => none
        | k2 + 1 => dotGroupFrom k2 t
    | [] =>
      match k with
      | 0 => none
      | k2 + 1 => dotGroupFrom k2 t

/-- `\s*(.+)` applied to `t`, returning the captured group. -/
def dotGroup (t : List Char) : Option (List Char) :=
  dotGroupFrom (t.takeWhile JsStr.isJsWs).length t

/-- `title.match(/\d+\.\s*(.+)/)`, returning the captured group: the
leftmost digit whose maximal run is followed by a dot and then (after
backtrackable whitespace) by at least one non-line-terminator character. -/
def matchNumTitle : List Char → Option (List Char)
  | [] => none
  | c :: rest =>
    if c.isDigit then
      let ds := (c :: rest).takeWhile Char.isDigit
      match (c :: rest).drop ds.length with
      | '.' :: t =>
        (match dotGroup t with
         | some g => some g
         | none => matchNumTitle rest)
      | _ => matchNumTitle rest
    else matchNumTitle rest

/-- The detail labels of the numbered-item regex (part_004 line 608), in
alternation order. -/
def detailLabels : List String := ["Location", "Date", "Time", "Price", "Cost", "When"]

/-- Case-insensitive literal match at the head of `s`, returning the
original-case slice and the remainder. -/
def tryLabelCI (lab : String) (s : List Char) : Option (List Char × List Char) :=
  if JsStr.lowerList (s.take lab.length) = JsStr.lowerList lab.data then
    some (s.take lab.length, s.drop lab.length)
  else none

/-- First label of `labs` matching at the head of `s`. -/
def firstLabel : List String → List Char → Option (List Char × List Char)
  | [], _ => none
  | lab :: labs, s =>
    match tryLabelCI lab s with
    | some r => some r
    | none => firstLabel labs s

/-- `detail.match(/^\s*(Location|Date|Time|Price|Cost|When):\s*(.+)/i)`,
returning the two captured groups.  The leading `\s*` must be maximal: a
label cannot begin with whitespace, so no backtracking arises there. -/
def matchLabelDetail (detail : List Char) : Option (List Char × List Char) :=
  let afterWs := detail.drop (detail.takeWhile JsStr.isJsWs).length
  match firstLabel detailLabels afterWs with
  | some (lab, rest1) =>
    (match rest1 with
     | ':' :: rest2 =>
       (match dotGroup rest2 with
        | some g2 => some (lab, g2)
        | none => none)
     | _ => none)
  | none => none

/-- `section.match(/^[-•]/m)`: some line of the section starts with a dash
or bullet (`^` with the `m` flag also matches right after a line
terminator). -/
def bulletAtStarts : Bool → List Char → Bool
  | _, [] => false
  | atStart, c :: rest =>
    (atStart && (c = '-' || c = '•')) || bulletAtStarts (c = '\n' || c = '\r') rest

/-- `section.split(/^[-•]\s*/m)`: each delimiter is a line-initial dash or
bullet together with the maximal following whitespace run (which may span
newlines); whether the next piece starts at a line start depends on whether
that run ended with a line terminator. -/
def splitBulletsGo : Nat → Bool → List Char → List Char → List (List Char)
  | _, _, acc, [] => [acc.reverse]
  | 0, _, acc, s => [acc.reverse ++ s]
  | fuel + 1, atStart, acc, c :: rest =>
    if atStart && (c = '-' || c = '•') then
      let ws := rest.takeWhile JsStr.isJsWs
      let newStart := match ws.getLast? with
        | some l => l = '\n' || l = '\r'
        | none => false
      acc.reverse :: splitBulletsGo fuel newStart [] (rest.drop ws.length)
    else splitBulletsGo fuel (c = '\n' || c = '\r') (c :: acc) rest

/-- `section.split(/^[-•]\s*/m)`. -/
def splitBullets (s : List Char) : List (List Char) := splitBulletsGo s.length true [] s

/-- The blocks pushed for one item of a numbered-list section (part_004
lines 596-618): skipped when blank or when the title regex fails; otherwise
an `event-item` div with an `h3` title and one joined details string. -/
def formatNumberedItem (item : List Char) : List String :=
  if JsStr.trimList item = [] then []
  else
    match splitOnChar '\n' item with
    | [] => []
    | title :: details =>
      match matchNumTitle title with
      | none => []
      | some t1 =>
        let detailsHtml := String.intercalate "\n" (details.map fun detail =>
          match matchLabelDetail detail with
          | some (lab, v) =>
            "<div class=\"event-detail\"><strong>" ++ String.mk lab ++ ":</strong> "
              ++ String.mk v ++ "</div>"
          | none => "<div class=\"event-description\">" ++ String.mk (JsStr.trimList detail) ++ "</div>")
        ["<div class=\"event-item\">", "<h3>" ++ String.mk t1 ++ "</h3>", detailsHtml, "</div>"]

/-- The blocks pushed for one section (part_004 lines 591-630). -/
def formatSection (s : List Char) : List String :=
  if JsStr.startsWithList (JsStr.trimList s) "1.".data then
    ["<div class=\"event-list\">"]
      ++ ((splitNumbered s).map formatNumberedItem).flatten
      ++ ["</div>"]
  else if bulletAtStarts true s then
    ["<ul>"]
      ++ (((splitBullets s).filter fun i => JsStr.trimList i ≠ []).map
            fun i => "<li>" ++ String.mk (JsStr.trimList i) ++ "</li>")
      ++ ["</ul>"]
  else ["<p>" ++ String.mk (JsStr.trimList s) ++ "</p>"]

/-- The post-strip pipeline of `formatResponse`: bold conversion, bullet
normalization, section split, per-section formatting, and the final
`join('\n')`. -/
def formatCleaned (s : List Char) : String :=
  String.intercalate "\n"
    (((splitSections (normalizeBullets (convBold s))).map formatSection).flatten)

/-- `formatResponse(text)` (part_004 lines 578-633).  A falsy (empty) input
returns the empty string; otherwise the HTML-tag strip runs first, then the
bold conversion and bullet normalization, then the section split and
per-section block construction. -/
def formatResponse (text : String) : String :=
  if text = "" then ""
  else formatCleaned (stripHtmlTags text.data)

end AIService

/-!  ## Supporting lemmas  -/

namespace UsageTracker

/-- A `get?` hit is within bounds. -/
lemma get?_some_lt {l : List IncPhase} {i : Nat} {a : IncPhase} (h : l.get? i = some a) :
    i < l.length := by
  obtain ⟨h1, -⟩ := List.get?_eq_some.mp h
  exact h1

lemma get?_set_self :
    ∀ (l : List IncPhase) (i : Nat) (a : IncPhase), i < l.length →
      (l.set i a).get? i = some a
  | _ :: _, 0, _, _ => rfl
  | _ :: xs, n + 1, a, h => get?_set_self xs n a (Nat.lt_of_succ_lt_succ h)
  | [], _, _, h => absurd h (by simp)

lemma get?_set_other :
    ∀ (l : List IncPhase) (i j : Nat) (a : IncPhase), i ≠ j →
      (l.set i a).get? j = l.get? j
  | [], _, _, _, _ => rfl
  | _ :: _, 0, 0, _, h => absurd rfl h
  | _ :: _, 0, _ + 1, _, _ => rfl
  | _ :: _, _ + 1, 0, _, _ => rfl
  | _ :: xs, i + 1, j + 1, a, h =>
    get?_set_other xs i j a (fun e => h (by rw [e]))

/-- The invariant maintained by every interleaving of the increment queue:
with `d` the persisted counter, the first `d` chained operations have
written, each having observed its own chain position as the pre-increment
value; every later operation is idle, except possibly operation `d`, which
may have observed exactly `d`. -/
def ChainInv (N : Nat) (s : ChainState) : Prop :=
  s.ops.length = N ∧
  s.storage ≤ N ∧
  (∀ j, j < s.storage → s.ops.get? j = some (.written j)) ∧
  (∀ j, s.storage < j → j < N → s.ops.get? j = some .idle) ∧
  (s.storage < N →
    s.ops.get? s.storage = some .idle ∨ s.ops.get? s.storage = some (.readDone s.storage))

lemma initChain_inv (N : Nat) : ChainInv N (initChain N) := by
  refine ⟨by simp [initChain], Nat.zero_le N, ?_, ?_, ?_⟩
  · intro j hj; exact absurd hj (Nat.not_lt_zero j)
  · intro j _ hjN
    simp [initChain, List.get?_eq_getElem?, List.getElem?_replicate, hjN]
  · intro h0
    left
    have h0N : 0 < N := by simpa [initChain] using h0
    simp [initChain, List.get?_eq_getElem?, List.getElem?_replicate, h0N, Nat.pos_iff_ne_zero.mp h0N]

lemma chainReady_all {ops : List IncPhase} {i : Nat} (h : chainReady ops i = true)
    {j : Nat} (hj : j < i) :
    ∃ v, ops.get? j = some (.written v) := by
  have hall := List.all_eq_true.mp h j (List.mem_range.mpr hj)
  cases hop : ops.get? j with
  | none => rw [hop] at hall; simp at hall
  | some p =>
    rw [hop] at hall
    cases p with
    | idle => simp [isWritten] at hall
    | readDone v => simp [isWritten] at hall
    | written v => exact ⟨v, rfl⟩

lemma chainStep_inv {N : Nat} {s s2 : ChainState} {i : Nat}
    (hinv : ChainInv N s) (hstep : chainStep s i = some s2) : ChainInv N s2 := by
  obtain ⟨hlen, hle, hw, hid, hcur⟩ := hinv
  unfold chainStep at hstep
  cases hop : s.ops.get? i with
  | none => rw [hop] at hstep; exact absurd hstep (by simp)
  | some p =>
    rw [hop] at hstep
    have hiN : i < N := hlen ▸ get?_some_lt hop
    cases p with
    | idle =>
      by_cases hr : chainReady s.ops i = true
      · rw [if_pos hr] at hstep
        have hieq : i = s.storage := by
          rcases Nat.lt_trichotomy i s.storage with hlt | heq | hgt
          · have := hw i hlt; rw [hop] at this; exact absurd this (by simp)
          · exact heq
          · obtain ⟨v, hv⟩ := chainReady_all hr hgt
            have hsN : s.storage < N := Nat.lt_of_lt_of_le hgt (Nat.le_of_lt hiN)
            rcases hcur hsN with hc | hc <;> rw [hc] at hv <;> exact absurd hv (by simp)
        obtain rfl := Option.some.inj hstep
        subst hieq
        refine ⟨by simpa using hlen, hle, ?_, ?_, ?_⟩
        · intro j hj
          dsimp only at hj ⊢
          rw [get?_set_other _ _ _ _ (Nat.ne_of_gt hj)]
          exact hw j hj
        · intro j hj hjN
          dsimp only at hj ⊢
          rw [get?_set_other _ _ _ _ (Nat.ne_of_lt hj)]
          exact hid j hj hjN
        · intro _
          right
          dsimp only
          exact get?_set_self _ _ _ (hlen ▸ hiN)
      · rw [if_neg hr] at hstep; exact absurd hstep (by simp)
    | readDone v =>
      have hieq : i = s.storage := by
        rcases Nat.lt_trichotomy i s.storage with hlt | heq | hgt
        · have := hw i hlt; rw [hop] at this
          exact absurd this (by simp)
        · exact heq
        · have := hid i hgt hiN; rw [hop] at this
          exact absurd this (by simp)
      subst hieq
      have hveq : v = s.storage := by
        rcases hcur hiN with hc | hc <;> rw [hc] at hop
        · exact absurd hop (by simp)
        · simpa using (Option.some.inj hop).symm
      subst hveq
      obtain rfl := Option.some.inj hstep
      refine ⟨by simpa using hlen, by dsimp only; omega, ?_, ?_, ?_⟩
      · intro j hj
        dsimp only at hj ⊢
        rcases Nat.lt_or_ge j s.storage with hjlt | hjge
        · rw [get?_set_other _ _ _ _ (Nat.ne_of_gt hjlt)]
          exact hw j hjlt
        · have : j = s.storage := by omega
          subst this
          exact get?_set_self _ _ _ (hlen ▸ hiN)
      · intro j hj hjN
        dsimp only at hj ⊢
        rw [get?_set_other _ _ _ _ (by omega : s.storage ≠ j)]
        exact hid j (by omega) hjN
      · intro hsN
        dsimp only at hsN ⊢
        left
        rw [get?_set_other _ _ _ _ (by omega : s.storage ≠ s.storage + 1)]
        exact hid (s.storage + 1) (by omega) hsN
    | written v => exact absurd hstep (by simp)

lemma chainRun_inv {N : Nat} (sched : List Nat) :
    ∀ {s s2 : ChainState}, ChainInv N s → chainRun s sched = some s2 → ChainInv N s2 := by
  induction sched with
  | nil =>
    intro s s2 hinv hrun
    obtain rfl : s = s2 := by simpa [chainRun] using hrun
    exact hinv
  | cons i rest ih =>
    intro s s2 hinv hrun
    unfold chainRun at hrun
    cases hstep : chainStep s i with
    | none => rw [hstep] at hrun; exact absurd hrun (by simp)
    | some smid =>
      rw [hstep] at hrun
      exact ih (chainStep_inv hinv hstep) hrun

lemma allWritten_final {N : Nat} {s : ChainState} (hinv : ChainInv N s)
    (hall : s.ops.all isWritten = true) :
    s.storage = N ∧ ∀ j, j < N → s.ops.get? j = some (.written j) := by
  obtain ⟨hlen, hle, hw, _, hcur⟩ := hinv
  have hst : s.storage = N := by
    rcases Nat.lt_or_ge s.storage N with hlt | hge
    · exfalso
      rcases hcur hlt with hc | hc <;>
      · have hmem := List.get?_mem hc
        have := List.all_eq_true.mp hall _ hmem
        simp [isWritten] at this
    · omega
  exact ⟨hst, fun j hj => hw j (hst ▸ hj)⟩

end UsageTracker

namespace MemoryService

lemma store_eq_dropExcess (l : List ConversationEntry) (e : ConversationEntry)
    (h : l.length ≤ 50) :
    storeConversation l e = (l ++ [e]).drop ((l ++ [e]).length - 50) := by
  unfold storeConversation MAX_MESSAGES
  by_cases h50 : l.length = 50
  · rw [if_pos (by simp [h50])]
    have : (l ++ [e]).length - 50 = 1 := by simp [h50]
    rw [this, ← List.drop_one]
  · rw [if_neg (by simp; omega)]
    have : (l ++ [e]).length - 50 = 0 := by simp; omega
    rw [this, List.drop_zero]

lemma drop_absorb (a b : List ConversationEntry) (n : Nat) :
    ((a.drop (a.length - n)) ++ b).drop ((a.drop (a.length - n) ++ b).length - n)
      = (a ++ b).drop ((a ++ b).length - n) := by
  have h1 : (a.length - n) + ((a.drop (a.length - n) ++ b).length - n)
      = (a ++ b).length - n := by
    simp only [List.length_append, List.length_drop]
    omega
  have h2 : ((a.drop (a.length - n) ++ b).length - n) - (a.drop (a.length - n)).length
      = (a ++ b).length - n - a.length := by
    simp only [List.length_append, List.length_drop]
    omega
  rw [List.drop_append_eq_append_drop, List.drop_append_eq_append_drop, List.drop_drop,
    h1, h2]

lemma foldl_store (es : List ConversationEntry) :
    ∀ l, l.length ≤ 50 →
      List.foldl storeConversation l es = (l ++ es).drop ((l ++ es).length - 50) := by
  induction es with
  | nil =>
    intro l h
    have : l.length - 50 = 0 := by omega
    simp [this]
  | cons e es ih =>
    intro l h
    have hlen : (storeConversation l e).length ≤ 50 := by
      rw [store_eq_dropExcess l e h]
      simp only [List.length_drop, List.length_append]
      omega
    calc List.foldl storeConversation l (e :: es)
        = List.foldl storeConversation (storeConversation l e) es := rfl
      _ = ((storeConversation l e) ++ es).drop
            (((storeConversation l e) ++ es).length - 50) := ih _ hlen
      _ = ((l ++ [e]) ++ es).drop (((l ++ [e]) ++ es).length - 50) := by
            rw [store_eq_dropExcess l e h]
            exact drop_absorb (l ++ [e]) es 50
      _ = (l ++ e :: es).drop ((l ++ e :: es).length - 50) := by simp

end MemoryService

namespace AIService

lemma sendGo_allFail (attempts : Nat → Except String ApiResponse) (errf : Nat → String)
    (maxRetries : Nat)
    (hf : ∀ i, i < maxRetries → attempts i = .error (errf i)) :
    ∀ fuel current acc made,
      maxRetries ≤ current + fuel →
      current < maxRetries →
      sendGo attempts maxRetries fuel current acc made =
        (some (apologyResponse (errf (maxRetries - 1))),
         acc.reverse ++ ((List.range' (current + 1) (maxRetries - 1 - current)).map
           fun j => min (1000 * 2 ^ j) 8000),
         made + (maxRetries - current)) := by
  intro fuel
  induction fuel with
  | zero => intro current acc made hfuel hcur; omega
  | succ f ih =>
    intro current acc made hfuel hcur
    simp only [sendGo, if_pos hcur, hf current hcur]
    by_cases hlast : current + 1 = maxRetries
    · rw [if_pos hlast]
      have h1 : maxRetries - 1 = current := by omega
      have h2 : maxRetries - 1 - current = 0 := by omega
      have h3 : maxRetries - current = 1 := by omega
      rw [h2, h3, h1]
      simp
    · rw [if_neg hlast]
      rw [ih (current + 1) _ (made + 1) (by omega) (by omega)]
      have hr : maxRetries - 1 - current = (maxRetries - 1 - (current + 1)) + 1 := by omega
      have hrange : List.range' (current + 1) ((maxRetries - 1 - (current + 1)) + 1)
          = (current + 1) :: List.range' (current + 2) (maxRetries - 1 - (current + 1)) := rfl
      have hmade : made + 1 + (maxRetries - (current + 1)) = made + (maxRetries - current) := by
        omega
      rw [hr, hrange, hmade]
      simp

end AIService

namespace Background

lemma perplexityGo_allFail (attempts : Nat → Except String String) (retryCount : Nat)
    (hf : ∀ i, i < retryCount → ∃ e, attempts i = .error e) :
    ∀ fuel current acc made,
      retryCount ≤ current + fuel →
      current < retryCount →
      perplexityGo attempts retryCount fuel current acc made =
        (some { success := true, text := perplexityApologyText },
         acc.reverse ++ ((List.range' current (retryCount - 1 - current)).map
           fun j => min (1000 * 2 ^ j) 8000),
         made + (retryCount - current)) := by
  intro fuel
  induction fuel with
  | zero => intro current acc made hfuel hcur; omega
  | succ f ih =>
    intro current acc made hfuel hcur
    obtain ⟨e, he⟩ := hf current hcur
    simp only [perplexityGo, if_pos hcur, he]
    by_cases hlast : current = retryCount - 1
    · rw [if_pos hlast]
      have h2 : retryCount - 1 - current = 0 := by omega
      have h3 : retryCount - current = 1 := by omega
      rw [h2, h3]
      simp
    · rw [if_neg hlast]
      rw [ih (current + 1) _ (made + 1) (by omega) (by omega)]
      have hr : retryCount - 1 - current = (retryCount - 1 - (current + 1)) + 1 := by omega
      have hrange : List.range' current ((retryCount - 1 - (current + 1)) + 1)
          = current :: List.range' (current + 1) (retryCount - 1 - (current + 1)) := rfl
      have hmade : made + 1 + (retryCount - (current + 1)) = made + (retryCount - current) := by
        omega
      rw [hr, hrange, hmade]
      simp

lemma claudeGo_allFail (attempts : Nat → Except String String) (errf : Nat → String)
    (retryCount : Nat)
    (hf : ∀ i, i < retryCount → attempts i = .error (errf i)) :
    ∀ fuel current acc made,
      retryCount ≤ current + fuel →
      current < retryCount →
      claudeGo attempts retryCount fuel current acc made =
        (.error ("Claude API Error: " ++ errf (retryCount - 1)),
         acc.reverse ++ ((List.range' current (retryCount - 1 - current)).map
           fun j => min (2 ^ j * 1000) 8000),
         made + (retryCount - current)) := by
  intro fuel
  induction fuel with
  | zero => intro current acc made hfuel hcur; omega
  | succ f ih =>
    intro current acc made hfuel hcur
    simp only [claudeGo, if_pos hcur, hf current hcur]
    by_cases hlast : current = retryCount - 1
    · rw [if_pos hlast]
      have h2 : retryCount - 1 - current = 0 := by omega
      have h3 : retryCount - current = 1 := by omega
      rw [h2, h3, ← hlast]
      simp
    · rw [if_neg hlast]
      rw [ih (current + 1) _ (made + 1) (by omega) (by omega)]
      have hr : retryCount - 1 - current = (retryCount - 1 - (current + 1)) + 1 := by omega
      have hrange : List.range' current ((retryCount - 1 - (current + 1)) + 1)
          = current :: List.range' (current + 1) (retryCount - 1 - (current + 1)) := rfl
      have hmade : made + 1 + (retryCount - (current + 1)) = made + (retryCount - current) := by
        omega
      rw [hr, hrange, hmade]
      simp

end Background

namespace AIService

lemma containsList_cons_false {c : Char} {rest needle : List Char}
    (h : JsStr.containsList (c :: rest) needle = false) :
    JsStr.startsWithList (c :: rest) needle = false ∧
      JsStr.containsList rest needle = false := by
  rw [JsStr.containsList] at h
  exact ⟨(Bool.or_eq_false_iff.mp h).1, (Bool.or_eq_false_iff.mp h).2⟩

lemma stripHtmlGo_id (l : List Char) :
    ∀ fuel, l.contains '<' = false → stripHtmlGo fuel l = l := by
  induction l with
  | nil => intro fuel _; cases fuel <;> rfl
  | cons c rest ih =>
    intro fuel h
    have hc : ¬(c = '<') ∧ rest.contains '<' = false := by
      constructor
      · intro he
        subst he
        simp [List.contains_cons] at h
      · cases hcr : rest.contains '<' with
        | false => rfl
        | true => rw [List.contains_cons, hcr] at h; simp at h
    cases fuel with
    | zero => rfl
    | succ f =>
      simp only [stripHtmlGo, if_neg hc.1]
      rw [ih f hc.2]

lemma convBoldGo_id (l : List Char) :
    ∀ fuel, JsStr.containsList l ['*', '*'] = false → convBoldGo fuel l = l := by
  induction l with
  | nil => intro fuel _; cases fuel <;> rfl
  | cons c rest ih =>
    intro fuel h
    obtain ⟨hsw, hrest⟩ := containsList_cons_false h
    have hcond : ¬(c = '*' ∧ rest.head? = some '*') := by
      rintro ⟨rfl, hh⟩
      cases rest with
      | nil => simp at hh
      | cons d rest2 =>
        have : d = '*' := by simpa using hh
        subst this
        simp [JsStr.startsWithList] at hsw
    cases fuel with
    | zero => rfl
    | succ f =>
      simp only [convBoldGo, if_neg hcond]
      rw [ih f hrest]

lemma normalizeBullets_id (l : List Char) : normalizeBullets l = l := by
  unfold normalizeBullets
  have : (fun c => if c = '•' then '•' else c) = (id : Char → Char) := by
    funext c
    by_cases hc : c = '•' <;> simp [hc]
  rw [this, List.map_id]

lemma splitSectionsGo_single (l : List Char) :
    ∀ fuel acc, l.length ≤ fuel → JsStr.containsList l ['\n', '\n'] = false →
      splitSectionsGo fuel acc l = [acc.reverse ++ l] := by
  induction l with
  | nil =>
    intro fuel acc _ _
    cases fuel <;> simp [splitSectionsGo]
  | cons c rest ih =>
    intro fuel acc hfuel h
    obtain ⟨hsw, hrest⟩ := containsList_cons_false h
    have hcond : ¬(c = '\n' ∧ rest.head? = some '\n') := by
      rintro ⟨rfl, hh⟩
      cases rest with
      | nil => simp at hh
      | cons d rest2 =>
        have : d = '\n' := by simpa using hh
        subst this
        simp [JsStr.startsWithList] at hsw
    cases fuel with
    | zero => simp at hfuel
    | succ f =>
      simp only [splitSectionsGo, if_neg hcond]
      rw [ih f (c :: acc) (by simpa using hfuel) hrest]
      simp

lemma formatSection_paragraph (l : List Char)
    (hnum : JsStr.startsWithList (JsStr.trimList l) "1.".data = false)
    (hbul : bulletAtStarts true l = false) :
    formatSection l = ["<p>" ++ String.mk (JsStr.trimList l) ++ "</p>"] := by
  unfold formatSection
  rw [if_neg (by simp [hnum]), if_neg (by simp [hbul])]

end AIService

/-!  ## Claim theorems  -/

/-- C10: `incrementUsage()` never rejects — the embedding
`UsageTracker.incrementUsage` is a total function, every call resolves — and
when any internal step throws (`fail = true`) it resolves with the fixed
record `{currentUsage: 0, remaining: 25, exceeded: false}` regardless of the
actually persisted counter; that record is exactly `calculateUsageInfo 0`,
the record of a fresh installation at usage zero, so the caller cannot tell
the two situations apart. -/
theorem incrementUsage_failure_record (persisted : Nat) :
    UsageTracker.incrementUsage true persisted =
      { currentUsage := 0, remaining := 25, exceeded := false } ∧
    UsageTracker.incrementUsage true persisted = UsageTracker.calculateUsageInfo 0 := by
  constructor
  · rfl
  · show _ = UsageTracker.calculateUsageInfo 0
    unfold UsageTracker.incrementUsage UsageTracker.calculateUsageInfo
    simp [UsageTracker.MAX_FREE_USES]

/-- C8: the conversation memory is a bounded ring.  After any sequence of
`storeConversation` operations starting from empty, the stored list is the
suffix of the appended entries of length at most 50 (so the length never
exceeds 50 and the order is insertion order), and appending 60 entries
leaves exactly the most recent 50 in their original relative order. -/
theorem conversation_ring_bounded (es : List MemoryService.ConversationEntry) :
    List.foldl MemoryService.storeConversation [] es = es.drop (es.length - 50) ∧
    (List.foldl MemoryService.storeConversation [] es).length ≤ 50 ∧
    List.foldl MemoryService.storeConversation []
        ((List.range 60).map MemoryService.mkEntry)
      = ((List.range 60).map MemoryService.mkEntry).drop 10 := by
  have hmain := MemoryService.foldl_store es [] (by simp)
  refine ⟨by simpa using hmain, ?_, ?_⟩
  · have heq : List.foldl MemoryService.storeConversation [] es = es.drop (es.length - 50) := by
      simpa using hmain
    rw [heq]
    simp only [List.length_drop]
    omega
  · have h60 := MemoryService.foldl_store ((List.range 60).map MemoryService.mkEntry) []
      (by simp)
    simpa using h60

/-- C1: for every interleaving of `N` concurrent `incrementUsage()` calls
for the same installation id starting from a persisted counter of `0` —
any schedule of read/persist steps that respects the `updateLock` promise
chain (each queued operation starts only after the previous one has fully
persisted) — once all operations have persisted, the final counter is `N`,
operation `j` observed exactly `j` as its pre-increment value, and no two
operations observed the same pre-increment value (no lost updates). -/
theorem incrementUsage_serializes (N : Nat) (sched : List Nat) (s : UsageTracker.ChainState)
    (hrun : UsageTracker.chainRun (UsageTracker.initChain N) sched = some s)
    (hall : s.ops.all UsageTracker.isWritten = true) :
    s.storage = N ∧
    (∀ j, j < N → s.ops.get? j = some (.written j)) ∧
    (∀ i j vi vj, s.ops.get? i = some (.written vi) → s.ops.get? j = some (.written vj) →
      vi = vj → i = j) := by
  have hinv := UsageTracker.chainRun_inv sched (UsageTracker.initChain_inv N) hrun
  have hmain := UsageTracker.allWritten_final hinv hall
  refine ⟨hmain.1, hmain.2, ?_⟩
  intro i j vi vj hi hj hvij
  have hlen : s.ops.length = N := hinv.1
  have hiN : i < N := hlen ▸ UsageTracker.get?_some_lt hi
  have hjN : j < N := hlen ▸ UsageTracker.get?_some_lt hj
  have hvi : vi = i := by
    have := hmain.2 i hiN
    rw [hi] at this
    simpa using Option.some.inj this
  have hvj : vj = j := by
    have := hmain.2 j hjN
    rw [hj] at this
    simpa using Option.some.inj this
  omega

/-- Witness for C1: two concurrent increments under the schedule
"op 0 reads, op 0 persists, op 1 reads, op 1 persists" reach the fully
persisted state with counter 2. -/
theorem incrementUsage_serializes_witness :
    UsageTracker.chainRun (UsageTracker.initChain 2) [0, 0, 1, 1] =
      some { storage := 2, ops := [.written 0, .written 1] } ∧
    ({ storage := 2, ops := [.written 0, .written 1] } : UsageTracker.ChainState).storage
      = 2 := by
  refine ⟨by decide, (incrementUsage_serializes 2 [0, 0, 1, 1] _ (by decide) (by decide)).1⟩

/-- Counterexample for C5: for the query "hello friend" both keyword scores
are 0 (at or below every threshold) and neither contextual regex matches,
yet the scoring-based combiner returns `hybrid`, not the analytical model. -/
theorem combiner_default_counterexample :
    ModelDelegationService.realTimeScore "hello friend" = (0, 2) ∧
    ModelDelegationService.analyticalScore "hello friend" = (0, 2) ∧
    ModelDelegationService.analyzeQueryContext "hello friend" = none ∧
    (ModelDelegationService.determineModelForQuery "hello friend").model = "hybrid" ∧
    (ModelDelegationService.determineModelForQuery "hello friend").model ≠ "claude" := by
  decide

/-- C5 (amended): in the scoring-based combiner, when the two scores do not
both exceed the 0.3 hybrid threshold, neither score exceeds the 0.5
single-model threshold, and the contextual regex checks do not match, the
returned decision is the `hybrid` model ("Complex query requiring
comprehensive response") — the default is hybrid, not analytical. -/
theorem combiner_default_hybrid (query : String)
    (h1 : (ModelDelegationService.scoreGt03 (ModelDelegationService.realTimeScore query) &&
           ModelDelegationService.scoreGt03 (ModelDelegationService.analyticalScore query))
          = false)
    (h2 : ModelDelegationService.scoreGt05 (ModelDelegationService.realTimeScore query) = false)
    (h3 : ModelDelegationService.scoreGt05 (ModelDelegationService.analyticalScore query)
          = false)
    (h4 : ModelDelegationService.analyzeQueryContext query = none) :
    ModelDelegationService.determineModelForQuery query =
      { model := "hybrid"
        reasoning := "Complex query requiring comprehensive response"
        scores := some (ModelDelegationService.realTimeScore query,
                        ModelDelegationService.analyticalScore query) } := by
  unfold ModelDelegationService.determineModelForQuery
  dsimp only
  rw [h1, h2, h3, h4]
  rfl

/-- Witness for C5: the amended default applies to "hello friend". -/
theorem combiner_default_hybrid_witness :
    ModelDelegationService.determineModelForQuery "hello friend" =
      { model := "hybrid"
        reasoning := "Complex query requiring comprehensive response"
        scores := some (ModelDelegationService.realTimeScore "hello friend",
                        ModelDelegationService.analyticalScore "hello friend") } :=
  combiner_default_hybrid "hello friend" (by decide) (by decide) (by decide) (by decide)

/-- Counterexample for C6: on the spec example query the combiner decides
`perplexity`, not `hybrid`. -/
theorem bostonQuery_not_hybrid_counterexample :
    (ModelDelegationService.determineModelForQuery
        ModelDelegationService.bostonQuery).model ≠ "hybrid" := by
  decide

/-- C6 (amended): on "Analyze the current weather trends and explain the
underlying atmospheric theory near Boston" both keyword scores are 3/13
(about 0.23, not above the 0.3 hybrid threshold: three matched keywords over
13 space-separated words), so the hybrid rule does not fire; the query then
falls to the contextual checks, where the location regex (`near Boston`)
routes it to the real-time model `perplexity`. -/
theorem bostonQuery_decision :
    ModelDelegationService.realTimeScore ModelDelegationService.bostonQuery = (3, 13) ∧
    ModelDelegationService.analyticalScore ModelDelegationService.bostonQuery = (3, 13) ∧
    ModelDelegationService.scoreGt03 (3, 13) = false ∧
    ModelDelegationService.determineModelForQuery ModelDelegationService.bostonQuery =
      { model := "perplexity"
        reasoning := "Location-based query requiring current data"
        scores := none } := by
  decide

/-- Counterexample for C4: "explain this" is a webpage-reference query
(explanation verb together with "this"), no earlier cascade rule fires, and
the decision is the real-time model `perplexity` with
`useWebpageContext = true` — not the analytical model Claude. -/
theorem webpageQuery_routes_perplexity_counterexample :
    AIService.isWebpageQuery "explain this" = true ∧
    AIService.determineModelForQuery "explain this" none =
      { model := "perplexity", useWebpageContext := true
        reasoning := "Query is about current webpage" } ∧
    (AIService.determineModelForQuery "explain this" none).model ≠ "claude" := by
  decide

/-- C4 (amended): whenever no earlier rule of the cascade fires and
`isWebpageQuery` holds (the query references this page/site/company/website
explicitly, or combines an explanation verb with the word "this"), the
decision is the real-time model `perplexity` with `useWebpageContext = true`
and reasoning "Query is about current webpage". -/
theorem webpageQuery_decision (prompt : String) (context : Option AIService.PageContext)
    (h1 : AIService.eventFires prompt = false)
    (h2 : (AIService.hasLocation prompt &&
           AIService.eventKwHit (JsStr.trim (JsStr.lower prompt))) = false)
    (h3 : (AIService.hasLocation prompt &&
           AIService.realTimeKwHit (JsStr.trim (JsStr.lower prompt))) = false)
    (h4 : (AIService.realTimeKwHit (JsStr.trim (JsStr.lower prompt)) &&
           !(JsStr.startsWithStr (JsStr.trim (JsStr.lower prompt)) "what is") &&
           !(JsStr.startsWithStr (JsStr.trim (JsStr.lower prompt)) "how does")) = false)
    (h5 : (AIService.companyFires prompt &&
           AIService.jsTruthyStr (context.bind (·.visibleText)) &&
           AIService.relevanceLt03 (AIService.calculateContextRelevance prompt
             ((context.bind (·.visibleText)).getD ""))) = false)
    (h6 : AIService.isWebpageQuery prompt = true) :
    AIService.determineModelForQuery prompt context =
      { model := "perplexity", useWebpageContext := true
        reasoning := "Query is about current webpage" } := by
  unfold AIService.determineModelForQuery
  dsimp only
  rw [h1, h2, h3, h4, h5, h6]
  rfl

/-- Witness for C4: the amended rule applies to "explain this" with no
context. -/
theorem webpageQuery_decision_witness :
    AIService.determineModelForQuery "explain this" none =
      { model := "perplexity", useWebpageContext := true
        reasoning := "Query is about current webpage" } :=
  webpageQuery_decision "explain this" none (by decide) (by decide) (by decide) (by decide)
    (by decide) (by decide)

/-- Counterexample for C2: with the default `maxRetries = 3` and every
attempt failing, `sendMessageWithRetry` sleeps 2000ms then 4000ms — not the
claimed 1000ms then 2000ms — while still making exactly 3 attempts. -/
theorem sendMessageWithRetry_delay_counterexample :
    (AIService.sendMessageWithRetry (fun _ => .error "network failure") 3).2.1
      = [2000, 4000] ∧
    ([2000, 4000] : List Nat) ≠ [1000, 2000] ∧
    (AIService.sendMessageWithRetry (fun _ => .error "network failure") 3).2.2 = 3 := by
  decide

/-- C2 (amended): when every attempt fails, `sendMessageWithRetry` makes
exactly `maxRetries` attempts and resolves with the `success: true` apology
embedding the final failure reason, but its delay before the `i`-th retry
(0-indexed) is `min(1000 * 2^(i+1), 8000)` — the sequence 2000, 4000, 8000,
8000, ... (the code computes the exponent from the already-incremented
attempt counter).  The background `handlePerplexityRequest` is the layer
whose delays follow the claimed `min(1000 * 2^i, 8000)` sequence 1000,
2000, ...; it too makes exactly `retryCount` attempts and returns the
`success: true` apology. -/
theorem retry_allFail_behavior
    (attempts : Nat → Except String AIService.ApiResponse) (errf : Nat → String)
    (pattempts : Nat → Except String String)
    (maxRetries retryCount : Nat) (hm : 1 ≤ maxRetries) (hr : 1 ≤ retryCount)
    (hf : ∀ i, i < maxRetries → attempts i = .error (errf i))
    (hp : ∀ i, i < retryCount → ∃ e, pattempts i = .error e) :
    AIService.sendMessageWithRetry attempts maxRetries =
      (some (AIService.apologyResponse (errf (maxRetries - 1))),
       (List.range' 1 (maxRetries - 1)).map (fun j => min (1000 * 2 ^ j) 8000),
       maxRetries) ∧
    Background.handlePerplexityRequest pattempts retryCount =
      (some { success := true, text := Background.perplexityApologyText },
       (List.range' 0 (retryCount - 1)).map (fun j => min (1000 * 2 ^ j) 8000),
       retryCount) := by
  constructor
  · have h := AIService.sendGo_allFail attempts errf maxRetries hf maxRetries 0 [] 0
      (by omega) (by omega)
    simpa [AIService.sendMessageWithRetry] using h
  · have h := Background.perplexityGo_allFail pattempts retryCount hp retryCount 0 [] 0
      (by omega) (by omega)
    simpa [Background.handlePerplexityRequest] using h

/-- Witness for C2: three failing attempts through `sendMessageWithRetry`
(delays 2000, 4000) and two through `handlePerplexityRequest` (delay
1000). -/
theorem retry_allFail_behavior_witness :
    AIService.sendMessageWithRetry (fun _ => .error "boom") 3 =
      (some (AIService.apologyResponse "boom"), [2000, 4000], 3) ∧
    Background.handlePerplexityRequest (fun _ => .error "boom") 2 =
      (some { success := true, text := Background.perplexityApologyText }, [1000], 2) := by
  have h := retry_allFail_behavior (fun _ => .error "boom") (fun _ => "boom")
    (fun _ => .error "boom") 3 2 (by decide) (by decide)
    (fun _ _ => rfl) (fun _ _ => ⟨"boom", rfl⟩)
  have e1 : (List.range' 1 2).map (fun j => min (1000 * 2 ^ j) 8000) = [2000, 4000] := by
    decide
  have e2 : (List.range' 0 1).map (fun j => min (1000 * 2 ^ j) 8000) = [1000] := by decide
  constructor
  · have h1 := h.1
    rw [e1] at h1
    exact h1
  · have h2 := h.2
    rw [e2] at h2
    exact h2

/-- Counterexample for C7: with every attempt failing on HTTP 401,
`handleClaudeRequest` (retryCount 2) makes 2 attempts — it retries the
authentication failure instead of short-circuiting after 1 — sleeping the
ordinary 1000ms backoff in between. -/
theorem authError_retried_counterexample :
    (Background.handleClaudeRequest
        (fun _ => .error (Background.claudeHttpError 401 "Unauthorized")) 2).2.2 = 2 ∧
    (Background.handleClaudeRequest
        (fun _ => .error (Background.claudeHttpError 401 "Unauthorized")) 2).2.1
      = [1000] ∧
    (2 : Nat) ≠ 1 := by
  decide

/-- C7 (amended): an authentication failure (HTTP 401/403) is not
special-cased anywhere: `handleClaudeRequest` retries it like every other
failure — `retryCount` attempts with the ordinary backoff — and then throws
the generically wrapped error (which `sendMessageWithRetry` turns into the
generic exhausted-retries apology); and the part_005 handler variant
produces the same generic apology template for an authentication error as
for every other error, so no distinguishable credential-reconfiguration
apology exists. -/
theorem authError_no_special_handling (status : Nat) (body : String) (retryCount : Nat)
    (hr : 1 ≤ retryCount) :
    Background.handleClaudeRequest
        (fun _ => .error (Background.claudeHttpError status body)) retryCount =
      (.error ("Claude API Error: " ++ Background.claudeHttpError status body),
       (List.range' 0 (retryCount - 1)).map (fun j => min (2 ^ j * 1000) 8000),
       retryCount) ∧
    (∀ e : String, Background.handleClaudeRequestAlt (.error e) =
      { success := false
        text := "I apologize, but I couldn\x27t process your request: " ++ e
        err := some ("Claude API Error: " ++ e) }) := by
  constructor
  · have h := Background.claudeGo_allFail
      (fun _ => .error (Background.claudeHttpError status body))
      (fun _ => Background.claudeHttpError status body) retryCount
      (fun _ _ => rfl) retryCount 0 [] 0 (by omega) (by omega)
    simpa [Background.handleClaudeRequest] using h
  · intro e
    rfl

/-- Witness for C7: the amended behavior at a concrete 401 failure with the
default retry count. -/
theorem authError_no_special_handling_witness :
    Background.handleClaudeRequest
        (fun _ => .error (Background.claudeHttpError 401 "Unauthorized")) 2 =
      (.error ("Claude API Error: " ++ Background.claudeHttpError 401 "Unauthorized"),
       [1000], 2) := by
  have h := (authError_no_special_handling 401 "Unauthorized" 2 (by decide)).1
  have e1 : (List.range' 0 1).map (fun j => min (2 ^ j * 1000) 8000) = [1000] := by decide
  rw [e1] at h
  exact h

set_option maxRecDepth 10000 in
/-- Counterexample for C3: when the real-time leg resolves with exactly the
known graceful-fallback apology text (a non-empty string), `queryHybrid`
does not skip the merge — it issues the merge call with the apology embedded
in the merge prompt and returns the result labeled as hybrid, not the
analytical result labeled as a fallback. -/
theorem queryHybrid_merges_apology_counterexample :
    AIService.queryHybrid (some Background.perplexityApologyText) (fun s => s)
        "test query" =
      { text := AIService.formattingPrompt "test query" Background.perplexityApologyText
        model := "hybrid (Perplexity + Claude)" } ∧
    (AIService.queryHybrid (some Background.perplexityApologyText) (fun s => s)
        "test query").model ≠ "Claude (fallback)" ∧
    JsStr.containsStr
      (AIService.formattingPrompt "test query" Background.perplexityApologyText)
      Background.perplexityApologyText = true := by
  refine ⟨by decide, by decide, by decide⟩

/-- C3 (amended): the hybrid path skips the merge and returns the
fallback-labeled result exactly when the real-time text is falsy (missing
or empty); the apology text is non-empty, so a real-time result equal to it
takes the merge branch, with the apology embedded in the merge prompt. -/
theorem queryHybrid_fallback_iff_empty (t : Option String) (claude : String → String)
    (prompt : String) :
    ((AIService.queryHybrid t claude prompt).model = "Claude (fallback)" ↔
      AIService.jsTruthyStr t = false) ∧
    (AIService.jsTruthyStr t = true →
      AIService.queryHybrid t claude prompt =
        { text := claude (AIService.formattingPrompt prompt (t.getD ""))
          model := "hybrid (Perplexity + Claude)" }) ∧
    AIService.jsTruthyStr (some Background.perplexityApologyText) = true := by
  refine ⟨?_, ?_, by decide⟩
  · by_cases ht : AIService.jsTruthyStr t = true
    · simp [AIService.queryHybrid, ht]
    · have ht2 : AIService.jsTruthyStr t = false := by
        revert ht
        cases AIService.jsTruthyStr t <;> simp
      simp [AIService.queryHybrid, ht2]
  · intro ht
    simp [AIService.queryHybrid, ht]

set_option maxRecDepth 10000 in
/-- Witness for C3: the merge branch applies to the apology text itself. -/
theorem queryHybrid_fallback_iff_empty_witness :
    AIService.queryHybrid (some Background.perplexityApologyText) id "q" =
      { text := id (AIService.formattingPrompt "q"
          ((some Background.perplexityApologyText).getD ""))
        model := "hybrid (Perplexity + Claude)" } :=
  (queryHybrid_fallback_iff_empty (some Background.perplexityApologyText) id "q").2.1
    (by decide)

/-- Counterexample for C9: the empty input — which vacuously contains no
blank-line break, no list marker, and no bold marker — formats to the empty
string, not to a paragraph block containing the (empty) trimmed text. -/
theorem formatResponse_empty_counterexample :
    AIService.formatResponse "" = "" ∧
    AIService.formatResponse "" ≠ "<p>" ++ String.mk (JsStr.trimList "".data) ++ "</p>" := by
  decide

/-- C9 (amended): `formatResponse` is a pure function (a function of the
input string alone), the HTML-tag strip runs before every other
transformation (second conjunct: for any non-empty input the result is the
post-strip pipeline applied to the stripped text), and every NON-EMPTY
input containing no `<` character, no `**` bold marker, no blank-line
section break, whose trimmed text does not start with `1.` and none of
whose lines starts with a dash or bullet, formats to exactly one paragraph
block containing the trimmed text. -/
theorem formatResponse_plain_paragraph (text : String)
    (hne : text ≠ "")
    (hlt : text.data.contains '<' = false)
    (hbold : JsStr.containsList text.data ['*', '*'] = false)
    (hnb : JsStr.containsList text.data ['\n', '\n'] = false)
    (hnum : JsStr.startsWithList (JsStr.trimList text.data) "1.".data = false)
    (hbul : AIService.bulletAtStarts true text.data = false) :
    AIService.formatResponse text
      = "<p>" ++ String.mk (JsStr.trimList text.data) ++ "</p>" ∧
    (∀ t : String, t ≠ "" →
      AIService.formatResponse t
        = AIService.formatCleaned (AIService.stripHtmlTags t.data)) := by
  constructor
  · unfold AIService.formatResponse
    rw [if_neg hne]
    unfold AIService.formatCleaned AIService.stripHtmlTags AIService.convBold
      AIService.splitSections
    rw [AIService.stripHtmlGo_id _ _ hlt, AIService.convBoldGo_id _ _ hbold,
      AIService.normalizeBullets_id,
      AIService.splitSectionsGo_single _ _ _ (Nat.le_refl _) hnb]
    simp only [List.reverse_nil, List.nil_append, List.map_cons, List.map_nil,
      List.flatten, List.append_nil]
    rw [AIService.formatSection_paragraph _ hnum hbul]
    rfl
  · intro t htne
    unfold AIService.formatResponse
    rw [if_neg htne]

/-- Witness for C9: a plain sentence formats to a single paragraph block. -/
theorem formatResponse_plain_paragraph_witness :
    AIService.formatResponse "  General relativity explained simply.  "
      = "<p>" ++ String.mk (JsStr.trimList "  General relativity explained simply.  ".data)
        ++ "</p>" :=
  (formatResponse_plain_paragraph "  General relativity explained simply.  "
    (by decide) (by decide) (by decide) (by decide) (by decide) (by decide)).1
